import Mathlib

/-!
Verification of the crules synchronization core: the registry of tracked
project paths and the sync orchestrator operations Init, Merge, Sync and
the fan-out helper syncToAll, shallowly embedded from the Go source
(package core and package git). External collaborators — the filesystem
copier, the repository fetcher, the operator prompt layer and the durable
registry store — are modelled as oracles gathered in a World record, and
every externally visible action of an operation is recorded, in order, in
an effect trace, so that frame conditions ("nothing else was touched") are
provable statements about the trace.
-/

namespace Crules

/-- Filesystem paths, as in the Go source, are plain strings. -/
abbrev Path := String

/-- filepath.Join for the two-component joins the source performs. -/
def joinPath (dir name : Path) : Path := dir ++ "/" ++ name

/-- The slice of utils.Config the sync manager reads. -/
structure Config where
  rulesDirName : String
deriving DecidableEq, Repr

/-- The slice of utils.AppPaths the sync manager reads: the three
directories ensured at construction and the rules directory that becomes
mainPath. -/
structure AppPaths where
  configDir : Path
  dataDir : Path
  logDir : Path
  rulesDir : Path
deriving DecidableEq, Repr

/-- Modelled from the spec: the Registry implementation is not under src
(only its callers are). Spec section 3: entries is a set of absolute
filesystem paths with a uniqueness invariant, kept in insertion order. -/
structure Registry where
  projects : List Path
deriving DecidableEq, Repr

/-- Modelled from the spec: AddProject normalizes and deduplicates the
path — append-if-absent, a no-op when the path is already present. -/
def Registry.AddProject (r : Registry) (p : Path) : Registry :=
  if p ∈ r.projects then r else ⟨r.projects ++ [p]⟩

/-- Modelled from the spec: GetProjects returns a read-only snapshot of
the entries in insertion order. -/
def Registry.GetProjects (r : Registry) : List Path := r.projects

/-- Modelled from the spec: Load with no stored file yields an empty
registry. -/
def Registry.empty : Registry := ⟨[]⟩

/-- Externally visible actions an operation can perform, in the order the
source performs them. Prompt effects record that the operator was asked;
the remaining constructors record filesystem, git or registry mutation. -/
inductive Effect where
  | copyDir (src dst : Path)
  | removeAll (p : Path)
  | mkdirAll (p : Path)
  | gitClone (url : String) (dst : Path)
  | cleanupOnFailure (p : Path)
  | addProject (p : Path)
  | warnMainMissing
  | warnMainNoRules
  | promptOptions
  | promptYesNo (q : String)
  | promptInputURL
deriving DecidableEq, Repr

/-- An effect that mutates the filesystem, the git clone target or the
registry (as opposed to prompts and warnings, which mutate nothing). -/
def Effect.isMutation : Effect → Bool
  | .copyDir _ _ => true
  | .removeAll _ => true
  | .mkdirAll _ => true
  | .gitClone _ _ => true
  | .cleanupOnFailure _ => true
  | .addProject _ => true
  | _ => false

/-- An effect that blocks on operator input. -/
def Effect.isPrompt : Effect → Bool
  | .promptOptions => true
  | .promptYesNo _ => true
  | .promptInputURL => true
  | _ => false

/-- Oracles for every external collaborator the sync manager calls:
os.Getwd, utils.DirExists, utils.CopyDir (none = success), utils.HasMDCFiles,
utils.ListDirectoryContents, the ui prompt layer, git.IsValidRepo,
git.Clone, os.RemoveAll, os.MkdirAll, and the durable persist step of
Registry.AddProject. -/
structure World where
  cwd : Option Path
  dirExists : Path → Bool
  copyErr : Path → Path → Option String
  hasMDCFiles : Path → Except String Bool
  listDir : Path → Except String (List String)
  promptChoice : Nat
  promptYesNo : String → Bool
  promptInput : String
  isValidRepo : String → Bool
  cloneErr : String → Path → Option String
  removeErr : Path → Option String
  mkdirErr : Path → Option String
  addProjectErr : Path → Option String

/-- The error values the operations return, one constructor per distinct
fmt.Errorf site (Sync returns the underlying copy error unwrapped). -/
inductive Err where
  | getwdFailed
  | mdcCheckFailed (msg : String)
  | cancelledByUser
  | listDirFailed (msg : String)
  | copyRulesFailed (msg : String)
  | addProjectFailed (msg : String)
  | notFound (dirName : String)
  | copyToMainFailed (msg : String)
  | ioError (msg : String)
deriving DecidableEq, Repr

/-- Result of one orchestrator operation: the returned error (none =
success), the ordered effect trace, and the registry state afterwards. -/
structure OpResult where
  err : Option Err
  trace : List Effect
  registry : Registry
deriving DecidableEq, Repr

/-- The SyncManager struct from package core. -/
structure SyncManager where
  mainPath : Path
  registry : Registry
  config : Config
  appPaths : AppPaths
deriving Repr

/-- Result of syncToAll: the succeeded/failed counts it logs, the effect
trace, the registry afterwards, and the error value it returns. -/
structure FanoutResult where
  succeeded : Nat
  failed : Nat
  trace : List Effect
  registry : Registry
  returned : Option Err
deriving DecidableEq, Repr

/-- One iteration of the loop in syncToAll, threading the
(succeeded, failed, trace) accumulator: skip and count failed when the
project directory is gone, otherwise attempt the copy and count it. -/
def syncProjectStep (sm : SyncManager) (w : World)
    (acc : Nat × Nat × List Effect) (project : Path) : Nat × Nat × List Effect :=
  if !(w.dirExists project) then
    (acc.1, acc.2.1 + 1, acc.2.2)
  else
    match w.copyErr sm.mainPath (joinPath project sm.config.rulesDirName) with
    | some _ =>
        (acc.1, acc.2.1 + 1,
         acc.2.2 ++ [Effect.copyDir sm.mainPath (joinPath project sm.config.rulesDirName)])
    | none =>
        (acc.1 + 1, acc.2.1,
         acc.2.2 ++ [Effect.copyDir sm.mainPath (joinPath project sm.config.rulesDirName)])

/-- syncToAll from package core: iterate over the registry snapshot,
count successes and failures, and return nil. -/
def SyncManager.syncToAll (sm : SyncManager) (w : World) : FanoutResult :=
  let r := (sm.registry.GetProjects).foldl (syncProjectStep sm w) (0, 0, [])
  ⟨r.1, r.2.1, r.2.2, sm.registry, none⟩

/-- Merge from package core: require the rules directory in the current
directory, copy it over mainPath, then fan out via syncToAll. -/
def SyncManager.Merge (sm : SyncManager) (w : World) : OpResult :=
  match w.cwd with
  | none => ⟨some .getwdFailed, [], sm.registry⟩
  | some currentDir =>
    let sourcePath := joinPath currentDir sm.config.rulesDirName
    if !(w.dirExists sourcePath) then
      ⟨some (.notFound sm.config.rulesDirName), [], sm.registry⟩
    else
      match w.copyErr sourcePath sm.mainPath with
      | some e =>
          ⟨some (.copyToMainFailed e), [Effect.copyDir sourcePath sm.mainPath], sm.registry⟩
      | none =>
          let r := sm.syncToAll w
          ⟨r.returned, Effect.copyDir sourcePath sm.mainPath :: r.trace, r.registry⟩

/-- Sync from package core: copy mainPath onto the rules directory under
the current directory, returning the copy error unwrapped on failure. -/
def SyncManager.Sync (sm : SyncManager) (w : World) : OpResult :=
  match w.cwd with
  | none => ⟨some .getwdFailed, [], sm.registry⟩
  | some currentDir =>
    let targetPath := joinPath currentDir sm.config.rulesDirName
    match w.copyErr sm.mainPath targetPath with
    | some e => ⟨some (.ioError e), [Effect.copyDir sm.mainPath targetPath], sm.registry⟩
    | none => ⟨none, [Effect.copyDir sm.mainPath targetPath], sm.registry⟩

/-- Tail of the create-empty branch of offerMainLocationOptions: the
os.MkdirAll call and its outcome. -/
def offerCreateEmptyTail (sm : SyncManager) (w : World) : Bool × List Effect :=
  match w.mkdirErr sm.mainPath with
  | some _ => (false, [Effect.mkdirAll sm.mainPath])
  | none => (true, [Effect.mkdirAll sm.mainPath])

/-- Tail of the fetch-from-git branch of offerMainLocationOptions: verify
the repository, clone, and on clone failure run git.CleanupOnFailure. -/
def offerCloneTail (sm : SyncManager) (w : World) (gitURL : String) : Bool × List Effect :=
  if !(w.isValidRepo gitURL) then (false, [])
  else
    match w.cloneErr gitURL sm.mainPath with
    | some _ =>
        (false, [Effect.gitClone gitURL sm.mainPath, Effect.cleanupOnFailure sm.mainPath])
    | none => (true, [Effect.gitClone gitURL sm.mainPath])

/-- offerMainLocationOptions from package core: the three-way choice for
an absent or rule-less main location. Returns true when Init should
continue, false when it should abort; the trace records every prompt and
mutation along the chosen branch. -/
def SyncManager.offerMainLocationOptions (sm : SyncManager) (w : World) : Bool × List Effect :=
  match w.promptChoice with
  | 0 =>
    if w.dirExists sm.mainPath then
      let q := "Remove existing directory and create empty structure?"
      if !(w.promptYesNo q) then (false, [Effect.promptOptions, Effect.promptYesNo q])
      else
        match w.removeErr sm.mainPath with
        | some _ =>
            (false, [Effect.promptOptions, Effect.promptYesNo q, Effect.removeAll sm.mainPath])
        | none =>
            let t := offerCreateEmptyTail sm w
            (t.1, Effect.promptOptions :: Effect.promptYesNo q :: Effect.removeAll sm.mainPath :: t.2)
    else
      let t := offerCreateEmptyTail sm w
      (t.1, Effect.promptOptions :: t.2)
  | 1 =>
    let gitURL := w.promptInput
    if w.dirExists sm.mainPath then
      let q := "Remove existing directory before cloning?"
      if !(w.promptYesNo q) then
        (false, [Effect.promptOptions, Effect.promptInputURL, Effect.promptYesNo q])
      else
        match w.removeErr sm.mainPath with
        | some _ =>
            (false, [Effect.promptOptions, Effect.promptInputURL, Effect.promptYesNo q,
                     Effect.removeAll sm.mainPath])
        | none =>
            let t := offerCloneTail sm w gitURL
            (t.1, Effect.promptOptions :: Effect.promptInputURL :: Effect.promptYesNo q ::
                  Effect.removeAll sm.mainPath :: t.2)
    else
      let t := offerCloneTail sm w gitURL
      (t.1, Effect.promptOptions :: Effect.promptInputURL :: t.2)
  | _ => (false, [Effect.promptOptions])

/-- The copy-and-register tail of Init: copy mainPath to the target, then
register the current directory (registry state reverts when the durable
write fails). -/
def initCopyRegister (sm : SyncManager) (w : World) (currentDir targetPath : Path) : OpResult :=
  match w.copyErr sm.mainPath targetPath with
  | some e => ⟨some (.copyRulesFailed e), [Effect.copyDir sm.mainPath targetPath], sm.registry⟩
  | none =>
    match w.addProjectErr currentDir with
    | some e =>
        ⟨some (.addProjectFailed e),
         [Effect.copyDir sm.mainPath targetPath, Effect.addProject currentDir], sm.registry⟩
    | none =>
        ⟨none, [Effect.copyDir sm.mainPath targetPath, Effect.addProject currentDir],
         sm.registry.AddProject currentDir⟩

/-- The check-target stage of Init: when the target exists and is
non-empty, list it and require confirmation before the copy. -/
def initCheckTarget (sm : SyncManager) (w : World) (currentDir targetPath : Path) : OpResult :=
  if w.dirExists targetPath then
    match w.listDir targetPath with
    | .error e => ⟨some (.listDirFailed e), [], sm.registry⟩
    | .ok files =>
      if files.isEmpty then initCopyRegister sm w currentDir targetPath
      else
        let q := "Do you want to continue and overwrite these files?"
        if w.promptYesNo q then
          let r := initCopyRegister sm w currentDir targetPath
          ⟨r.err, Effect.promptYesNo q :: r.trace, r.registry⟩
        else ⟨some .cancelledByUser, [Effect.promptYesNo q], sm.registry⟩
  else initCopyRegister sm w currentDir targetPath

/-- Init after the main-location check: run offerMainLocationOptions when
setup is needed (aborting with the cancelled-by-user error when it returns
false), then fall through to the target check. -/
def initFromTargetStage (sm : SyncManager) (w : World) (currentDir targetPath : Path)
    (needsSetup : Bool) (warnTrace : List Effect) : OpResult :=
  if needsSetup then
    let o := sm.offerMainLocationOptions w
    if o.1 then
      let r := initCheckTarget sm w currentDir targetPath
      ⟨r.err, warnTrace ++ o.2 ++ r.trace, r.registry⟩
    else ⟨some .cancelledByUser, warnTrace ++ o.2, sm.registry⟩
  else
    let r := initCheckTarget sm w currentDir targetPath
    ⟨r.err, warnTrace ++ r.trace, r.registry⟩

/-- Init from package core: check the main location (missing, or present
without .mdc files, triggers the setup options), then the target check,
the copy and the registration. -/
def SyncManager.Init (sm : SyncManager) (w : World) : OpResult :=
  match w.cwd with
  | none => ⟨some .getwdFailed, [], sm.registry⟩
  | some currentDir =>
    let targetPath := joinPath currentDir sm.config.rulesDirName
    if !(w.dirExists sm.mainPath) then
      initFromTargetStage sm w currentDir targetPath true [Effect.warnMainMissing]
    else
      match w.hasMDCFiles sm.mainPath with
      | .error e => ⟨some (.mdcCheckFailed e), [], sm.registry⟩
      | .ok hasFiles =>
        if hasFiles then initFromTargetStage sm w currentDir targetPath false []
        else initFromTargetStage sm w currentDir targetPath true [Effect.warnMainNoRules]

/-- The world after a successful os.MkdirAll: the directory now exists. -/
def World.afterMkdir (w : World) (p : Path) : World :=
  { w with dirExists := fun q => if q = p then true else w.dirExists q }

/-- NewSyncManager from package core: ensure the config, data and log
directories and the main rules directory exist (utils.EnsureDirExists and
os.MkdirAll share the mkdir oracle), then adopt the loaded registry
(LoadRegistry is not under src; its result is passed in). Returns the
constructed manager together with the world as the mkdir calls left it. -/
def NewSyncManager (w : World) (config : Config) (appPaths : AppPaths)
    (loaded : Option Registry) : Option (SyncManager × World) :=
  if (w.mkdirErr appPaths.configDir).isSome then none
  else if (w.mkdirErr appPaths.dataDir).isSome then none
  else if (w.mkdirErr appPaths.logDir).isSome then none
  else if (w.mkdirErr appPaths.rulesDir).isSome then none
  else
    match loaded with
    | none => none
    | some reg =>
        some (⟨appPaths.rulesDir, reg, config, appPaths⟩,
          (((w.afterMkdir appPaths.configDir).afterMkdir appPaths.dataDir).afterMkdir
            appPaths.logDir).afterMkdir appPaths.rulesDir)

/-- Whether the fan-out loop records a success for a given project: its
directory exists and the copy into it succeeds. -/
def projectSyncOk (sm : SyncManager) (w : World) (p : Path) : Bool :=
  w.dirExists p && (w.copyErr sm.mainPath (joinPath p sm.config.rulesDirName)).isNone

/-- A fixed base world for concrete evaluations: every oracle succeeds,
the operator approves every prompt, and the option choice is Cancel. -/
def wBase : World where
  cwd := some "/proj"
  dirExists := fun _ => true
  copyErr := fun _ _ => none
  hasMDCFiles := fun _ => Except.ok true
  listDir := fun _ => Except.ok []
  promptChoice := 2
  promptYesNo := fun _ => true
  promptInput := "git@github.com:example/rules.git"
  isValidRepo := fun _ => true
  cloneErr := fun _ _ => none
  removeErr := fun _ => none
  mkdirErr := fun _ => none
  addProjectErr := fun _ => none

/-- A fixed sync manager with three registered projects for concrete
evaluations. -/
def smTest : SyncManager :=
  ⟨"/main/rules", ⟨["/p1", "/p2", "/p3"]⟩, ⟨"rules"⟩, ⟨"/cfg", "/data", "/log", "/main/rules"⟩⟩

/-! ### Basic lemmas -/

/-- Appending the same name under different directories is injective in
the directory. -/
lemma joinPath_inj_left {a b : Path} (n : String) (h : joinPath a n = joinPath b n) :
    a = b := by
  have hd : (a ++ "/").data ++ n.data = (b ++ "/").data ++ n.data := by
    simpa [joinPath, String.data_append] using congrArg String.data h
  have hab : (a ++ "/").data = (b ++ "/").data := List.append_cancel_right hd
  have : a.data ++ "/".data = b.data ++ "/".data := by
    simpa [String.data_append] using hab
  exact String.ext (List.append_cancel_right this)

/-- The copy effect the fan-out loop records for a project, when its
directory exists. -/
def fanoutEffect (sm : SyncManager) (w : World) (p : Path) : Option Effect :=
  if w.dirExists p then some (Effect.copyDir sm.mainPath (joinPath p sm.config.rulesDirName))
  else none

/-- Closed form of the fan-out fold: the counts are filter lengths and the
trace is the attempted copies in registry order. -/
lemma foldl_syncProjectStep (sm : SyncManager) (w : World) (ps : List Path)
    (s f : Nat) (tr : List Effect) :
    ps.foldl (syncProjectStep sm w) (s, f, tr) =
      (s + (ps.filter (fun p => projectSyncOk sm w p)).length,
       f + (ps.filter (fun p => !projectSyncOk sm w p)).length,
       tr ++ ps.filterMap (fanoutEffect sm w)) := by
  induction ps generalizing s f tr with
  | nil => simp
  | cons p ps ih =>
    simp only [List.foldl_cons, List.filter_cons, List.filterMap_cons]
    rcases hd : w.dirExists p with _ | _
    · have hok : projectSyncOk sm w p = false := by simp [projectSyncOk, hd]
      simp [syncProjectStep, hd, ih, hok, fanoutEffect, Nat.add_assoc, Nat.add_comm 1]
    · rcases hc : w.copyErr sm.mainPath (joinPath p sm.config.rulesDirName) with _ | e
      · have hok : projectSyncOk sm w p = true := by simp [projectSyncOk, hd, hc]
        simp [syncProjectStep, hd, hc, ih, hok, fanoutEffect, Nat.add_assoc, Nat.add_comm 1]
      · have hok : projectSyncOk sm w p = false := by simp [projectSyncOk, hd, hc]
        simp [syncProjectStep, hd, hc, ih, hok, fanoutEffect, Nat.add_assoc, Nat.add_comm 1]

/-- Closed form of syncToAll. -/
lemma syncToAll_spec (sm : SyncManager) (w : World) :
    sm.syncToAll w =
      ⟨((sm.registry.GetProjects).filter (fun p => projectSyncOk sm w p)).length,
       ((sm.registry.GetProjects).filter (fun p => !projectSyncOk sm w p)).length,
       (sm.registry.GetProjects).filterMap (fanoutEffect sm w),
       sm.registry, none⟩ := by
  simp [SyncManager.syncToAll, foldl_syncProjectStep]

/-- AddProject folded over any call sequence keeps the entries duplicate
free, and the final entries are the initial ones plus the added paths. -/
lemma addProject_foldl_spec (ps : List Path) (r : Registry) (h : r.projects.Nodup) :
    (ps.foldl Registry.AddProject r).projects.Nodup ∧
    ∀ p, p ∈ (ps.foldl Registry.AddProject r).projects ↔ p ∈ r.projects ∨ p ∈ ps := by
  induction ps generalizing r with
  | nil => exact ⟨h, fun p => by simp⟩
  | cons a ps ih =>
    simp only [List.foldl_cons]
    by_cases ha : a ∈ r.projects
    · have step : r.AddProject a = r := by simp [Registry.AddProject, ha]
      rw [step]
      obtain ⟨h1, h2⟩ := ih r h
      refine ⟨h1, fun p => ?_⟩
      rw [h2 p]
      have hpa : p = a → p ∈ r.projects := fun hq => hq ▸ ha
      simp only [List.mem_cons]
      tauto
    · have step : r.AddProject a = ⟨r.projects ++ [a]⟩ := by simp [Registry.AddProject, ha]
      rw [step]
      have hnd : (r.projects ++ [a]).Nodup := by
        simp [List.nodup_append, h, ha]
      obtain ⟨h1, h2⟩ := ih ⟨r.projects ++ [a]⟩ hnd
      refine ⟨h1, fun p => ?_⟩
      rw [h2 p]
      simp only [List.mem_append, List.mem_singleton, List.mem_cons]
      tauto

/-! ### Claim theorems -/

/-- C1: fan-out sync (syncToAll, invoked by Merge) visits every registered
project even when the copy for an earlier project fails: the loop runs to
completion over the whole registry snapshot (succeeded + failed equals the
number of registered projects, with the two counts characterised by the
per-project outcome), and every project whose directory exists has its
copy attempted regardless of other failures. -/
theorem syncToAll_isolation_and_counts (sm : SyncManager) (w : World) :
    (sm.syncToAll w).succeeded + (sm.syncToAll w).failed = (sm.registry.GetProjects).length ∧
    (sm.syncToAll w).succeeded =
      ((sm.registry.GetProjects).filter (fun p => projectSyncOk sm w p)).length ∧
    (sm.syncToAll w).failed =
      ((sm.registry.GetProjects).filter (fun p => !projectSyncOk sm w p)).length ∧
    ∀ p ∈ sm.registry.GetProjects, w.dirExists p = true →
      Effect.copyDir sm.mainPath (joinPath p sm.config.rulesDirName) ∈ (sm.syncToAll w).trace := by
  rw [syncToAll_spec]
  refine ⟨(List.length_eq_length_filter_add _).symm, rfl, rfl, fun p hp hd => ?_⟩
  exact List.mem_filterMap.mpr ⟨p, hp, by simp [fanoutEffect, hd]⟩

/-- The world used for the fan-out witnesses: every oracle succeeds except
the copy into the rules subdirectory of project /p2. -/
def wFanout : World :=
  { wBase with copyErr := fun _ dst => if dst = "/p2/rules" then some "unwritable" else none }

/-- C1 witness: with the three registered projects of smTest and the copy
into /p2 failing, projects /p1 and /p3 are still attempted and the logged
counts are succeeded = 2, failed = 1. -/
theorem syncToAll_isolation_and_counts_witness :
    Effect.copyDir smTest.mainPath (joinPath "/p3" smTest.config.rulesDirName) ∈
      (smTest.syncToAll wFanout).trace ∧
    Effect.copyDir smTest.mainPath (joinPath "/p1" smTest.config.rulesDirName) ∈
      (smTest.syncToAll wFanout).trace ∧
    (smTest.syncToAll wFanout).succeeded = 2 ∧ (smTest.syncToAll wFanout).failed = 1 := by
  refine ⟨?_, ?_, by decide, by decide⟩
  · exact (syncToAll_isolation_and_counts smTest wFanout).2.2.2 "/p3" (by decide) (by decide)
  · exact (syncToAll_isolation_and_counts smTest wFanout).2.2.2 "/p1" (by decide) (by decide)

/-- C2: Merge from a current directory with no rules subdirectory fails
with the not-found error and performs no mutation: the effect trace is
empty and the registry is unchanged. -/
theorem merge_missing_source_no_mutation (sm : SyncManager) (w : World) (d : Path)
    (hcwd : w.cwd = some d)
    (hd : w.dirExists (joinPath d sm.config.rulesDirName) = false) :
    sm.Merge w = ⟨some (.notFound sm.config.rulesDirName), [], sm.registry⟩ := by
  simp [SyncManager.Merge, hcwd, hd]

/-- C2 witness: at a concrete world where no directory exists, Merge
returns the not-found error with an empty trace and unchanged registry. -/
theorem merge_missing_source_no_mutation_witness :
    smTest.Merge { wBase with dirExists := fun _ => false } =
      ⟨some (.notFound "rules"), [], smTest.registry⟩ :=
  merge_missing_source_no_mutation smTest { wBase with dirExists := fun _ => false } "/proj"
    rfl rfl

/-- C5: in Merge, the copy into mainPath must succeed before fan-out
begins: when that copy fails Merge aborts with only the single copy
attempt in its trace (no other project touched, registry unchanged), and
when it succeeds the trace puts that copy strictly before every fan-out
effect. -/
theorem merge_copy_to_main_precedes_fanout (sm : SyncManager) (w : World) (d : Path)
    (hcwd : w.cwd = some d)
    (hsrc : w.dirExists (joinPath d sm.config.rulesDirName) = true) :
    (∀ e, w.copyErr (joinPath d sm.config.rulesDirName) sm.mainPath = some e →
      sm.Merge w = ⟨some (.copyToMainFailed e),
        [Effect.copyDir (joinPath d sm.config.rulesDirName) sm.mainPath], sm.registry⟩) ∧
    (w.copyErr (joinPath d sm.config.rulesDirName) sm.mainPath = none →
      (sm.Merge w).trace =
        Effect.copyDir (joinPath d sm.config.rulesDirName) sm.mainPath ::
          (sm.syncToAll w).trace) := by
  constructor
  · intro e he
    simp [SyncManager.Merge, hcwd, hsrc, he]
  · intro he
    simp [SyncManager.Merge, hcwd, hsrc, he]

/-- The world used for the C5 witness: the copy into mainPath fails. -/
def wCopyMainFail : World :=
  { wBase with copyErr := fun _ dst => if dst = "/main/rules" then some "disk full" else none }

/-- C5 witness: with the copy into mainPath failing, Merge aborts after
that single attempt; with it succeeding, the fan-out trace follows it. -/
theorem merge_copy_to_main_precedes_fanout_witness :
    smTest.Merge wCopyMainFail = ⟨some (.copyToMainFailed "disk full"),
      [Effect.copyDir (joinPath "/proj" smTest.config.rulesDirName) smTest.mainPath],
      smTest.registry⟩ ∧
    (smTest.Merge wBase).trace =
      Effect.copyDir (joinPath "/proj" smTest.config.rulesDirName) smTest.mainPath ::
        (smTest.syncToAll wBase).trace := by
  constructor
  · exact (merge_copy_to_main_precedes_fanout smTest wCopyMainFail "/proj" rfl rfl).1
      "disk full" (by decide)
  · exact (merge_copy_to_main_precedes_fanout smTest wBase "/proj" rfl rfl).2 rfl

/-- C6: a registered project whose directory no longer exists is skipped:
the registry is not mutated, the failed count is positive, no copy into
that project appears in the trace, and every other existing project still
has its copy attempted. -/
theorem syncToAll_skip_missing_no_registry_mutation (sm : SyncManager) (w : World) (p : Path)
    (hp : p ∈ sm.registry.GetProjects) (hd : w.dirExists p = false) :
    (sm.syncToAll w).registry = sm.registry ∧
    1 ≤ (sm.syncToAll w).failed ∧
    Effect.copyDir sm.mainPath (joinPath p sm.config.rulesDirName) ∉ (sm.syncToAll w).trace ∧
    ∀ q ∈ sm.registry.GetProjects, w.dirExists q = true →
      Effect.copyDir sm.mainPath (joinPath q sm.config.rulesDirName) ∈ (sm.syncToAll w).trace := by
  rw [syncToAll_spec]
  refine ⟨rfl, ?_, ?_, fun q hq hdq => ?_⟩
  · have hmem : p ∈ (sm.registry.GetProjects).filter (fun q => !projectSyncOk sm w q) :=
      List.mem_filter.mpr ⟨hp, by simp [projectSyncOk, hd]⟩
    simpa [Nat.succ_le_iff] using List.length_pos_of_mem hmem
  · intro hmem
    obtain ⟨q, hq, hfq⟩ := List.mem_filterMap.mp hmem
    by_cases hdq : w.dirExists q
    · have : joinPath q sm.config.rulesDirName = joinPath p sm.config.rulesDirName := by
        simpa [fanoutEffect, hdq] using hfq
      have hqp : q = p := joinPath_inj_left _ this
      rw [hqp, hd] at hdq
      exact Bool.false_ne_true hdq
    · simp [fanoutEffect, hdq] at hfq
  · exact List.mem_filterMap.mpr ⟨q, hq, by simp [fanoutEffect, hdq]⟩

/-- The world used for the C6 witness: the directory of project /p2 no
longer exists; everything else succeeds. -/
def wMissingP2 : World :=
  { wBase with dirExists := fun p => p != "/p2" }

/-- C6 witness: with /p2 missing, syncToAll leaves the registry unchanged,
counts a failure, never writes into /p2, and still copies into /p1. -/
theorem syncToAll_skip_missing_no_registry_mutation_witness :
    (smTest.syncToAll wMissingP2).registry = smTest.registry ∧
    1 ≤ (smTest.syncToAll wMissingP2).failed ∧
    Effect.copyDir smTest.mainPath (joinPath "/p2" smTest.config.rulesDirName) ∉
      (smTest.syncToAll wMissingP2).trace ∧
    Effect.copyDir smTest.mainPath (joinPath "/p1" smTest.config.rulesDirName) ∈
      (smTest.syncToAll wMissingP2).trace := by
  have h := syncToAll_skip_missing_no_registry_mutation smTest wMissingP2 "/p2"
    (by decide) (by decide)
  exact ⟨h.1, h.2.1, h.2.2.1, h.2.2.2 "/p1" (by decide) (by decide)⟩

/-- C7: Sync is fully non-interactive — its trace never contains a prompt
effect — and with a current directory it either performs exactly the copy
of mainPath onto the target and succeeds, or returns the underlying copy
error. -/
theorem sync_noninteractive_copy (sm : SyncManager) (w : World) :
    (∀ e ∈ (sm.Sync w).trace, e.isPrompt = false) ∧
    ∀ d, w.cwd = some d →
      ((w.copyErr sm.mainPath (joinPath d sm.config.rulesDirName) = none →
        sm.Sync w = ⟨none, [Effect.copyDir sm.mainPath (joinPath d sm.config.rulesDirName)],
          sm.registry⟩) ∧
       ∀ e, w.copyErr sm.mainPath (joinPath d sm.config.rulesDirName) = some e →
        (sm.Sync w).err = some (.ioError e)) := by
  constructor
  · intro e he
    rcases hcwd : w.cwd with _ | d
    · simp [SyncManager.Sync, hcwd] at he
    · rcases hc : w.copyErr sm.mainPath (joinPath d sm.config.rulesDirName) with _ | msg <;>
        · simp [SyncManager.Sync, hcwd, hc] at he
          simp [he, Effect.isPrompt]
  · intro d hcwd
    constructor
    · intro hc
      simp [SyncManager.Sync, hcwd, hc]
    · intro e hc
      simp [SyncManager.Sync, hcwd, hc]

/-- The world used for the C7 failing witness: every copy fails. -/
def wCopyFail : World :=
  { wBase with copyErr := fun _ _ => some "read error" }

/-- C7 witness: at wBase, Sync performs exactly the one copy with no
prompt and succeeds; at wCopyFail it returns the underlying error. -/
theorem sync_noninteractive_copy_witness :
    smTest.Sync wBase = ⟨none,
      [Effect.copyDir smTest.mainPath (joinPath "/proj" smTest.config.rulesDirName)],
      smTest.registry⟩ ∧
    (smTest.Sync wCopyFail).err = some (.ioError "read error") := by
  constructor
  · exact ((sync_noninteractive_copy smTest wBase).2 "/proj" rfl).1 rfl
  · exact ((sync_noninteractive_copy smTest wCopyFail).2 "/proj" rfl).2 "read error" rfl

/-- C8: for every sequence of AddProject calls on an initially empty
registry, GetProjects afterwards has no duplicate entry and contains
exactly the paths that were added: each distinct path appears exactly
once. -/
theorem registry_addProject_dedup (ps : List Path) :
    ((ps.foldl Registry.AddProject Registry.empty).GetProjects).Nodup ∧
    ∀ p, p ∈ (ps.foldl Registry.AddProject Registry.empty).GetProjects ↔ p ∈ ps := by
  obtain ⟨h1, h2⟩ := addProject_foldl_spec ps Registry.empty (by simp [Registry.empty])
  refine ⟨h1, fun p => ?_⟩
  have := h2 p
  simpa [Registry.GetProjects, Registry.empty] using this

/-- C10: syncToAll returns nil unconditionally, for every registry
snapshot and every combination of per-project failures, so Merge reports
overall success whenever its copy into mainPath succeeds; the
succeeded/failed counts live only in the logged FanoutResult fields, not
in the returned error value. -/
theorem syncToAll_returns_nil (sm : SyncManager) (w : World) :
    (sm.syncToAll w).returned = none ∧
    ∀ d, w.cwd = some d →
      w.dirExists (joinPath d sm.config.rulesDirName) = true →
      w.copyErr (joinPath d sm.config.rulesDirName) sm.mainPath = none →
      (sm.Merge w).err = none := by
  constructor
  · rfl
  · intro d hcwd hde hce
    simp [SyncManager.Merge, hcwd, hde, hce, syncToAll_spec]

/-- C10 witness: even when every per-project copy fails, syncToAll returns
nil and Merge reports success. -/
theorem syncToAll_returns_nil_witness :
    (smTest.syncToAll wCopyFail).returned = none ∧
    (smTest.Merge wMissingP2).err = none := by
  constructor
  · exact (syncToAll_returns_nil smTest wCopyFail).1
  · exact (syncToAll_returns_nil smTest wMissingP2).2 "/proj" rfl (by decide) rfl

/-- C3: when the target directory exists and is non-empty and the
operator declines the overwrite prompt, Init returns the cancelled-by-user
outcome, its trace holds only the prompt (zero filesystem mutation, no
copy), and the registry is unchanged (the project is not registered). -/
theorem init_decline_overwrite_cancels (sm : SyncManager) (w : World) (d : Path)
    (files : List String)
    (hcwd : w.cwd = some d)
    (hmain : w.dirExists sm.mainPath = true)
    (hmdc : w.hasMDCFiles sm.mainPath = Except.ok true)
    (htgt : w.dirExists (joinPath d sm.config.rulesDirName) = true)
    (hlist : w.listDir (joinPath d sm.config.rulesDirName) = Except.ok files)
    (hne : files.isEmpty = false)
    (hdecl : w.promptYesNo "Do you want to continue and overwrite these files?" = false) :
    sm.Init w = ⟨some .cancelledByUser,
      [Effect.promptYesNo "Do you want to continue and overwrite these files?"],
      sm.registry⟩ ∧
    ∀ e ∈ (sm.Init w).trace, e.isMutation = false := by
  have hres : sm.Init w = ⟨some .cancelledByUser,
      [Effect.promptYesNo "Do you want to continue and overwrite these files?"],
      sm.registry⟩ := by
    simp [SyncManager.Init, hcwd, hmain, hmdc, initFromTargetStage, initCheckTarget,
      htgt, hlist, hne, hdecl]
  refine ⟨hres, fun e he => ?_⟩
  rw [hres] at he
  simp at he
  simp [he, Effect.isMutation]

/-- The world used for the C3 witness: the target directory is non-empty
and the operator declines the overwrite prompt. -/
def wDecline : World :=
  { wBase with listDir := (fun _ => Except.ok ["old.mdc"]), promptYesNo := (fun _ => false) }

/-- C3 witness: at the concrete declining world, Init cancels with only
the prompt in its trace and the effect recorded is not a mutation. -/
theorem init_decline_overwrite_cancels_witness :
    smTest.Init wDecline = ⟨some .cancelledByUser,
      [Effect.promptYesNo "Do you want to continue and overwrite these files?"],
      smTest.registry⟩ ∧
    Effect.isMutation (Effect.promptYesNo "Do you want to continue and overwrite these files?")
      = false := by
  have h := init_decline_overwrite_cancels smTest wDecline "/proj" ["old.mdc"]
    rfl rfl rfl rfl rfl rfl rfl
  refine ⟨h.1, ?_⟩
  exact h.2 _ (by rw [h.1]; exact List.mem_singleton.mpr rfl)

/-- The world used for the C4 counterexample: the main location is absent,
the operator chooses the fetch-from-repository option and the clone
fails. -/
def wCloneFail : World :=
  { wBase with
    dirExists := fun _ => false
    promptChoice := 1
    cloneErr := fun _ _ => some "network unreachable" }

/-- The world used for the C4 counterexample on the cancel side: the main
location is absent and the operator picks the Cancel option. -/
def wUserCancel : World :=
  { wBase with dirExists := (fun _ => false), promptChoice := 2 }

/-- C4 counterexample: on clone failure the partial artifact is cleaned up
and Init aborts, but the returned outcome is exactly the cancelled-by-user
error — identical to the outcome of an operator cancellation, not distinct
from it: offerMainLocationOptions reports both to Init as a bare false. -/
theorem init_clone_failure_outcome_conflated :
    Effect.cleanupOnFailure smTest.mainPath ∈ (smTest.Init wCloneFail).trace ∧
    (smTest.Init wCloneFail).err = some Err.cancelledByUser ∧
    (smTest.Init wUserCancel).err = some Err.cancelledByUser ∧
    (smTest.Init wCloneFail).err = (smTest.Init wUserCancel).err := by
  refine ⟨?_, ?_, ?_, ?_⟩ <;> decide

/-- C4 (amended): on clone failure in the fetch branch, Init cleans up the
partial artifact at mainPath and the whole operation aborts with no
further step executed — but the outcome it returns is the same
cancelled-by-user error that an operator cancellation produces, because
offerMainLocationOptions collapses both into a boolean. -/
theorem init_clone_failure_cleanup_and_abort (sm : SyncManager) (w : World) (d e : String)
    (hcwd : w.cwd = some d)
    (hmain : w.dirExists sm.mainPath = false)
    (hch : w.promptChoice = 1)
    (hvalid : w.isValidRepo w.promptInput = true)
    (hclone : w.cloneErr w.promptInput sm.mainPath = some e) :
    sm.Init w = ⟨some .cancelledByUser,
      [Effect.warnMainMissing, Effect.promptOptions, Effect.promptInputURL,
       Effect.gitClone w.promptInput sm.mainPath, Effect.cleanupOnFailure sm.mainPath],
      sm.registry⟩ := by
  simp [SyncManager.Init, hcwd, hmain, initFromTargetStage,
    SyncManager.offerMainLocationOptions, hch, offerCloneTail, hvalid, hclone]

/-- C4 witness: the amended statement evaluated at the concrete
clone-failure world. -/
theorem init_clone_failure_cleanup_and_abort_witness :
    smTest.Init wCloneFail = ⟨some .cancelledByUser,
      [Effect.warnMainMissing, Effect.promptOptions, Effect.promptInputURL,
       Effect.gitClone wCloneFail.promptInput smTest.mainPath,
       Effect.cleanupOnFailure smTest.mainPath],
      smTest.registry⟩ :=
  init_clone_failure_cleanup_and_abort smTest wCloneFail "/proj" "network unreachable"
    rfl rfl rfl rfl rfl

/-- Every effect in the copy-and-register tail of Init is the copy or the
registration. -/
lemma initCopyRegister_trace (sm : SyncManager) (w : World) (c t : Path) :
    ∀ e ∈ (initCopyRegister sm w c t).trace,
      e = Effect.copyDir sm.mainPath t ∨ e = Effect.addProject c := by
  intro e he
  unfold initCopyRegister at he
  split at he
  · simp at he
    exact Or.inl he
  · split at he
    · simp at he
      tauto
    · simp at he
      tauto

/-- Every effect in the check-target stage of Init is the copy, the
registration, or the overwrite prompt. -/
lemma initCheckTarget_trace (sm : SyncManager) (w : World) (c t : Path) :
    ∀ e ∈ (initCheckTarget sm w c t).trace,
      e = Effect.copyDir sm.mainPath t ∨ e = Effect.addProject c ∨
        e = Effect.promptYesNo "Do you want to continue and overwrite these files?" := by
  intro e he
  unfold initCheckTarget at he
  dsimp only at he
  split at he
  · split at he
    · simp at he
    · split at he
      · rcases initCopyRegister_trace sm w c t e he with h | h <;> tauto
      · split at he
        · simp at he
          rcases he with h | h
          · tauto
          · rcases initCopyRegister_trace sm w c t e h with h | h <;> tauto
        · simp at he
          tauto
  · rcases initCopyRegister_trace sm w c t e he with h | h <;> tauto

/-- Every effect recorded by offerMainLocationOptions is a mutation or a
prompt (in particular it is never one of the two Init warnings). -/
lemma offer_trace_kinds (sm : SyncManager) (w : World) :
    ∀ e ∈ (sm.offerMainLocationOptions w).2, e.isMutation = true ∨ e.isPrompt = true := by
  intro e he
  unfold SyncManager.offerMainLocationOptions offerCreateEmptyTail offerCloneTail at he
  dsimp only at he
  repeat' split at he
  all_goals simp at he
  all_goals try casesm* _ ∨ _
  all_goals subst_vars
  all_goals simp [Effect.isMutation, Effect.isPrompt]

/-- The missing-main warning never comes from offerMainLocationOptions. -/
lemma offer_no_warnMainMissing (sm : SyncManager) (w : World) :
    Effect.warnMainMissing ∉ (sm.offerMainLocationOptions w).2 := by
  intro h
  rcases offer_trace_kinds sm w _ h with h1 | h1 <;> simp [Effect.isMutation, Effect.isPrompt] at h1

/-- The missing-main warning never comes from the check-target stage. -/
lemma initCheckTarget_no_warnMainMissing (sm : SyncManager) (w : World) (c t : Path) :
    Effect.warnMainMissing ∉ (initCheckTarget sm w c t).trace := by
  intro h
  rcases initCheckTarget_trace sm w c t _ h with h1 | h1 | h1 <;> simp at h1

/-- The setup options prompt never comes from the check-target stage. -/
lemma initCheckTarget_no_promptOptions (sm : SyncManager) (w : World) (c t : Path) :
    Effect.promptOptions ∉ (initCheckTarget sm w c t).trace := by
  intro h
  rcases initCheckTarget_trace sm w c t _ h with h1 | h1 | h1 <;> simp at h1

/-- The missing-main warning appears in the trace from the setup stage on
only if it was already in the warning prefix. -/
lemma stage_no_warnMainMissing (sm : SyncManager) (w : World) (cdir t : Path) (ns : Bool)
    (wt : List Effect) (hwt : Effect.warnMainMissing ∉ wt) :
    Effect.warnMainMissing ∉ (initFromTargetStage sm w cdir t ns wt).trace := by
  intro hmem
  unfold initFromTargetStage at hmem
  dsimp only at hmem
  split at hmem
  · split at hmem
    · simp at hmem
      rcases hmem with hm | hm | hm
      · exact hwt hm
      · exact offer_no_warnMainMissing sm w hm
      · exact initCheckTarget_no_warnMainMissing sm w cdir t hm
    · simp at hmem
      rcases hmem with hm | hm
      · exact hwt hm
      · exact offer_no_warnMainMissing sm w hm
  · simp at hmem
    rcases hmem with hm | hm
    · exact hwt hm
    · exact initCheckTarget_no_warnMainMissing sm w cdir t hm

/-- Without the setup stage, the options prompt appears in the trace only
if it was already in the warning prefix. -/
lemma stage_false_no_promptOptions (sm : SyncManager) (w : World) (cdir t : Path)
    (wt : List Effect) (hwt : Effect.promptOptions ∉ wt) :
    Effect.promptOptions ∉ (initFromTargetStage sm w cdir t false wt).trace := by
  intro hmem
  unfold initFromTargetStage at hmem
  simp only [Bool.false_eq_true, if_false, List.mem_append] at hmem
  rcases hmem with hm | hm
  · exact hwt hm
  · exact initCheckTarget_no_promptOptions sm w cdir t hm

/-- When the main location exists, Init never emits the missing-main
warning, and it reaches the setup options only because the main location
has no .mdc files. -/
lemma init_main_exists_no_missing_warn (sm : SyncManager) (w : World)
    (hdir : w.dirExists sm.mainPath = true) :
    Effect.warnMainMissing ∉ (sm.Init w).trace ∧
    (Effect.promptOptions ∈ (sm.Init w).trace →
      w.hasMDCFiles sm.mainPath = Except.ok false) := by
  rcases hcwd : w.cwd with _ | d
  · simp [SyncManager.Init, hcwd]
  · rcases hmdc : w.hasMDCFiles sm.mainPath with msg | b
    · simp [SyncManager.Init, hcwd, hdir, hmdc]
    · cases b with
      | true =>
        have hinit : sm.Init w =
            initFromTargetStage sm w d (joinPath d sm.config.rulesDirName) false [] := by
          simp [SyncManager.Init, hcwd, hdir, hmdc]
        rw [hinit]
        refine ⟨stage_no_warnMainMissing sm w d _ false [] (by simp), fun hmem => ?_⟩
        exact absurd hmem (stage_false_no_promptOptions sm w d _ [] (by simp))
      | false =>
        have hinit : sm.Init w =
            initFromTargetStage sm w d (joinPath d sm.config.rulesDirName) true
              [Effect.warnMainNoRules] := by
          simp [SyncManager.Init, hcwd, hdir, hmdc]
        rw [hinit]
        exact ⟨stage_no_warnMainMissing sm w d _ true [Effect.warnMainNoRules] (by simp),
          fun _ => rfl⟩

/-- C9: after a successful NewSyncManager, mainPath exists as a directory
(MkdirAll created it), so Init on the constructed manager never takes the
missing-main branch of CheckMainLocation — the setup options can only be
triggered by the no-rule-files condition. -/
theorem init_main_missing_branch_unreachable (w : World) (c : Config) (ap : AppPaths)
    (lr : Option Registry) (sm : SyncManager) (w' : World)
    (h : NewSyncManager w c ap lr = some (sm, w')) :
    w'.dirExists sm.mainPath = true ∧
    Effect.warnMainMissing ∉ (sm.Init w').trace ∧
    (Effect.promptOptions ∈ (sm.Init w').trace →
      w'.hasMDCFiles sm.mainPath = Except.ok false) := by
  unfold NewSyncManager at h
  split at h
  · exact absurd h (by simp)
  · split at h
    · exact absurd h (by simp)
    · split at h
      · exact absurd h (by simp)
      · split at h
        · exact absurd h (by simp)
        · split at h
          · exact absurd h (by simp)
          · rw [Option.some.injEq, Prod.mk.injEq] at h
            obtain ⟨hsm, hw⟩ := h
            subst hsm
            subst hw
            have hdir : ((((w.afterMkdir ap.configDir).afterMkdir ap.dataDir).afterMkdir
                ap.logDir).afterMkdir ap.rulesDir).dirExists ap.rulesDir = true := by
              simp [World.afterMkdir]
            exact ⟨hdir, init_main_exists_no_missing_warn _ _ hdir⟩

/-- The application paths used for the construction witness. -/
def apTest : AppPaths := ⟨"/cfg", "/data", "/log", "/main/rules"⟩

/-- The world left behind by the construction witness. -/
def wAfterNew : World :=
  (((wBase.afterMkdir "/cfg").afterMkdir "/data").afterMkdir "/log").afterMkdir "/main/rules"

/-- C9 witness: a concrete successful construction, after which the main
location exists and Init emits no missing-main warning. -/
theorem init_main_missing_branch_unreachable_witness :
    wAfterNew.dirExists smTest.mainPath = true ∧
    Effect.warnMainMissing ∉ (smTest.Init wAfterNew).trace := by
  have h := init_main_missing_branch_unreachable wBase ⟨"rules"⟩ apTest
    (some ⟨["/p1", "/p2", "/p3"]⟩) smTest wAfterNew rfl
  exact ⟨h.1, h.2.1⟩

end Crules
